import Mathlib

/-!
Shallow embedding of the simulation core of the top-down arena shooter
(src/components/GameCanvas.tsx), together with proofs of the stated
properties of its geometry kernel, map generator and simulation step.

Conventions of the embedding:
* JavaScript numbers are modelled as exact rationals (ℚ).
* `Math.sqrt` appears in the source in two roles.  Where the source only
  compares `Math.sqrt d < s`, we use the exact real-arithmetic equivalence
  `Real.sqrt d < s ↔ 0 < s ∧ d < s * s` (valid for every `d ≥ 0`, and the
  source only takes square roots of sums of squares), encoded by `sqrtLt`.
  Where the source uses the value of `Math.sqrt d` itself
  (`resolveWallCollision`, `resolveDecorationCollision`), the square root
  is passed as an explicit function parameter `s : ℚ → ℚ`; theorems about
  those code paths assume `s` is exact on the radicand they touch
  (`s d * s d = d` and `0 ≤ s d`), which pins it to the mathematical
  square root there.
* `Math.random()` results are passed in as explicit lists of rationals;
  the hypotheses `0 ≤ r` and `r ≤ 1` mirror the range of `Math.random`.
* Mutation of the entity collections is modelled by explicit state
  passing, in the same order as the source statements.
* Fields that are only used for display (`id`, `color`, `name`) are
  omitted from the record types; no simulation branch reads them except
  the decoration `type` tag, which is kept.
-/

/-- Source: src/types.ts, interface Vector2. -/
structure Vector2 where
  x : ℚ
  y : ℚ

/-- Source: src/types.ts, interface Wall.  The optional `isLow` flag is a
Bool (absent means `false`). -/
structure Wall where
  x : ℚ
  y : ℚ
  width : ℚ
  height : ℚ
  isLow : Bool

/-- Source: src/types.ts, interface Entity (display-only fields omitted). -/
structure Entity where
  position : Vector2
  velocity : Vector2
  radius : ℚ

/-- Source: src/types.ts, interface Player. -/
structure Player where
  position : Vector2
  velocity : Vector2
  radius : ℚ
  hp : ℚ
  maxHp : ℚ
  speed : ℚ
  ammo : ℤ

/-- Source: src/types.ts, interface Enemy. -/
structure Enemy where
  position : Vector2
  velocity : Vector2
  radius : ℚ
  hp : ℚ
  speed : ℚ
  value : ℚ

/-- Source: src/types.ts, interface Bullet (ownerId omitted: no simulation
branch reads it). -/
structure Bullet where
  position : Vector2
  velocity : Vector2
  radius : ℚ
  damage : ℚ

/-- Source: src/types.ts, interface HealthPack. -/
structure HealthPack where
  position : Vector2
  velocity : Vector2
  radius : ℚ
  active : Bool

/-- Source: src/types.ts, the `type` tag of Decoration; the only variant
is 'CACTUS'. -/
inductive DecorationType where
  | CACTUS
deriving DecidableEq

/-- Source: src/types.ts, interface Decoration. -/
structure Decoration where
  x : ℚ
  y : ℚ
  type : DecorationType
  scale : ℚ
  rotation : ℚ
  radius : ℚ

/-- The two named map layouts; the source stores the map name as a string
and only ever compares it against "Wasteland". -/
inductive MapName where
  | Erindale
  | Wasteland
deriving DecidableEq

/-- Source: GameCanvas.tsx line 148, the `Intersection` result record of
`getIntersection`. -/
structure Intersection where
  x : ℚ
  y : ℚ
  param : ℚ

/-- Squared Euclidean distance; the source writes `dx*dx + dy*dy` inline
at each use site. -/
def distSq (a b : Vector2) : ℚ :=
  (a.x - b.x) * (a.x - b.x) + (a.y - b.y) * (a.y - b.y)

/-- Exact rendering of the comparison `Math.sqrt d < s` used throughout
the game loop: over the reals, for `d ≥ 0`, `Real.sqrt d < s` holds
exactly when `0 < s ∧ d < s * s`. -/
def sqrtLt (d s : ℚ) : Bool :=
  decide (0 < s) && decide (d < s * s)

/-- Source: GameCanvas.tsx lines 90-91 (and 140-141): the closest point on
the axis-aligned rectangle `w` to the point `p`, computed per axis as
`Math.max(wall.x, Math.min(p.x, wall.x + wall.width))`. -/
def closestPoint (p : Vector2) (w : Wall) : Vector2 :=
  ⟨max w.x (min p.x (w.x + w.width)), max w.y (min p.y (w.y + w.height))⟩

/-- Source: GameCanvas.tsx lines 88-110, `resolveWallCollision`.
Circle-vs-rectangle minimal-translation resolution: if the squared
distance from the entity centre to the closest rectangle point is
strictly between 0 and radius², push the entity centre out along the
normal by `radius - distance`.  `s` models `Math.sqrt` (see module
comment).  The source mutates `entity.position` in place and touches
nothing else; here the updated entity is returned. -/
def resolveWallCollision (s : ℚ → ℚ) (e : Entity) (w : Wall) : Entity :=
  let c := closestPoint e.position w
  let dx := e.position.x - c.x
  let dy := e.position.y - c.y
  let distanceSquared := dx * dx + dy * dy
  if distanceSquared < e.radius * e.radius ∧ 0 < distanceSquared then
    let distance := s distanceSquared
    let overlap := e.radius - distance
    let nx := dx / distance
    let ny := dy / distance
    { e with position := ⟨e.position.x + nx * overlap, e.position.y + ny * overlap⟩ }
  else
    e

/-- Source: GameCanvas.tsx lines 114-134, `resolveDecorationCollision`.
Circle-vs-circle resolution against a decoration; returns the updated
entity and whether a collision occurred.  `s` models `Math.sqrt`. -/
def resolveDecorationCollision (s : ℚ → ℚ) (e : Entity) (decor : Decoration) :
    Entity × Bool :=
  let dx := e.position.x - decor.x
  let dy := e.position.y - decor.y
  let dSq := dx * dx + dy * dy
  let minRadius := e.radius + decor.radius
  if dSq < minRadius * minRadius ∧ 0 < dSq then
    let dist := s dSq
    let overlap := minRadius - dist
    let nx := dx / dist
    let ny := dy / dist
    ({ e with position := ⟨e.position.x + nx * overlap, e.position.y + ny * overlap⟩ },
      true)
  else
    (e, false)

/-- Source: GameCanvas.tsx lines 136-145, `checkBulletWallCollision`:
bullets fly over low walls; otherwise the bullet hits the wall when the
squared distance to the closest rectangle point is below radius². -/
def checkBulletWallCollision (b : Bullet) (w : Wall) : Bool :=
  if w.isLow then false
  else
    decide (distSq b.position (closestPoint b.position w) < b.radius * b.radius)

/-- Source: GameCanvas.tsx line 168, the denominator `r_dx*s_dy - r_dy*s_dx`
of the parametric ray/segment intersection. -/
def rayDenominator (rayStart rayEnd segmentStart segmentEnd : Vector2) : ℚ :=
  (rayEnd.x - rayStart.x) * (segmentEnd.y - segmentStart.y) -
    (rayEnd.y - rayStart.y) * (segmentEnd.x - segmentStart.x)

/-- Source: GameCanvas.tsx line 171, the ray parameter `t`.  (When the
denominator is zero this is a division by zero, which the source never
evaluates; in Lean it yields 0.) -/
def rayT (rayStart rayEnd segmentStart segmentEnd : Vector2) : ℚ :=
  ((segmentStart.x - rayStart.x) * (segmentEnd.y - segmentStart.y) -
      (segmentStart.y - rayStart.y) * (segmentEnd.x - segmentStart.x)) /
    rayDenominator rayStart rayEnd segmentStart segmentEnd

/-- Source: GameCanvas.tsx line 172, the segment parameter `u`. -/
def rayU (rayStart rayEnd segmentStart segmentEnd : Vector2) : ℚ :=
  ((segmentStart.x - rayStart.x) * (rayEnd.y - rayStart.y) -
      (segmentStart.y - rayStart.y) * (rayEnd.x - rayStart.x)) /
    rayDenominator rayStart rayEnd segmentStart segmentEnd

/-- Source: GameCanvas.tsx lines 150-182, `getIntersection`.  The source's
degeneracy test is `Math.sqrt(rdx²+rdy²) * Math.sqrt(sdx²+sdy²) === 0`,
which over the reals holds exactly when one of the two radicands is 0
(both are sums of squares, hence nonnegative). -/
def getIntersection (rayStart rayEnd segmentStart segmentEnd : Vector2) :
    Option Intersection :=
  let r_dx := rayEnd.x - rayStart.x
  let r_dy := rayEnd.y - rayStart.y
  let s_dx := segmentEnd.x - segmentStart.x
  let s_dy := segmentEnd.y - segmentStart.y
  if r_dx * r_dx + r_dy * r_dy = 0 ∨ s_dx * s_dx + s_dy * s_dy = 0 then none
  else if rayDenominator rayStart rayEnd segmentStart segmentEnd = 0 then none
  else
    let t := rayT rayStart rayEnd segmentStart segmentEnd
    let u := rayU rayStart rayEnd segmentStart segmentEnd
    if 0 < t ∧ t ≤ 1 ∧ 0 ≤ u ∧ u ≤ 1 then
      some ⟨rayStart.x + t * r_dx, rayStart.y + t * r_dy, t⟩
    else none

/-- Source: GameCanvas.tsx lines 373-383 of `findSafeSpawnPosition`: the
per-axis half extents (`mapW`, `mapH`) of the named map. -/
def mapHalfExtents : MapName → ℚ × ℚ
  | MapName.Wasteland => (1600 / 2, 2000 / 2)
  | MapName.Erindale => (1200, 1200)

/-- Source: GameCanvas.tsx lines 393-398 of `findSafeSpawnPosition`: the
candidate position `(x, y)` overlaps `wall` when its bounding box inflated
by the safety player radius 20 intersects the wall rectangle. -/
def spawnOverlaps (x y : ℚ) (wall : Wall) : Bool :=
  decide (wall.x < x + 20) && decide (x - 20 < wall.x + wall.width) &&
    decide (wall.y < y + 20) && decide (y - 20 < wall.y + wall.height)

/-- Source: GameCanvas.tsx lines 385-402, the attempt loop of
`findSafeSpawnPosition`.  Each attempt consumes one pair of
`Math.random()` results from `rand`; the fuel argument is the remaining
attempt count.  Returns the first safe sample, or the origin when the
attempts are exhausted. -/
def spawnSearch (mapW mapH : ℚ) (walls : List Wall) :
    ℕ → List (ℚ × ℚ) → Vector2
  | 0, _ => ⟨0, 0⟩
  | _ + 1, [] => ⟨0, 0⟩
  | n + 1, (rx, ry) :: rest =>
    let x := (rx * 2 - 1) * (mapW - 100)
    let y := (ry * 2 - 1) * (mapH - 100)
    if walls.all fun wall => !spawnOverlaps x y wall then ⟨x, y⟩
    else spawnSearch mapW mapH walls n rest

/-- Source: GameCanvas.tsx lines 370-405, `findSafeSpawnPosition`:
up to `MAX_ATTEMPTS = 50` random samples inside the map half extents
minus `PADDING = 100`, accepting the first whose inflated bounding box
overlaps no wall, with the origin as unvalidated fallback. -/
def findSafeSpawnPosition (walls : List Wall) (mapName : MapName)
    (rand : List (ℚ × ℚ)) : Vector2 :=
  spawnSearch (mapHalfExtents mapName).1 (mapHalfExtents mapName).2 walls 50 rand

/-- Source: GameCanvas.tsx lines 572-577 of `spawnHealthPack`: the point
`(x, y)` is strictly inside the wall rectangle. -/
def insideWall (x y : ℚ) (wall : Wall) : Bool :=
  decide (wall.x < x) && decide (x < wall.x + wall.width) &&
    decide (wall.y < y) && decide (y < wall.y + wall.height)

/-- Source: GameCanvas.tsx lines 566-591, the attempt loop of
`spawnHealthPack`: up to 10 random positions sampled from the fixed
square of half extent `mapSize = 1200` (independent of the current map);
the first candidate strictly inside no wall becomes the pack. -/
def healthPackSearch (walls : List Wall) : ℕ → List (ℚ × ℚ) → Option HealthPack
  | 0, _ => none
  | _ + 1, [] => none
  | n + 1, (rx, ry) :: rest =>
    let x := (rx * 2 - 1) * 1200
    let y := (ry * 2 - 1) * 1200
    if walls.any fun wall => insideWall x y wall then
      healthPackSearch walls n rest
    else
      some ⟨⟨x, y⟩, ⟨0, 0⟩, 15, true⟩

/-- Source: GameCanvas.tsx lines 559-593, `spawnHealthPack`: fires only
when more than `HEALTH_PACK_INTERVAL = 30000` ms have passed since the
last pack, then tries up to 10 random positions. -/
def spawnHealthPack (walls : List Wall) (now lastHealthPackTime : ℚ)
    (rand : List (ℚ × ℚ)) : Option HealthPack :=
  if 30000 < now - lastHealthPackTime then healthPackSearch walls 10 rand
  else none

/-- Source: GameCanvas.tsx lines 760-763: bullet position integration. -/
def moveBullet (b : Bullet) : Bullet :=
  { b with position := ⟨b.position.x + b.velocity.x, b.position.y + b.velocity.y⟩ }

/-- Source: GameCanvas.tsx line 757: the despawn radius is 1.5 times the
larger viewport dimension, `Math.max(canvas.width, canvas.height) * 1.5`. -/
def despawnDistance (width height : ℚ) : ℚ :=
  max width height * 1.5

/-- Source: GameCanvas.tsx lines 765-782, the bullet filter body: a bullet
survives the frame when it collides with no (non-low) wall and
`Math.sqrt(dx*dx+dy*dy) < despawnDistance` holds for its offset from the
camera focus.  Decorations are never consulted, so bullets pass through
cacti. -/
def bulletSurvives (walls : List Wall) (cameraPos : Vector2) (despawnDist : ℚ)
    (b : Bullet) : Bool :=
  if walls.any fun wall => checkBulletWallCollision b wall then false
  else sqrtLt (distSq b.position cameraPos) despawnDist

/-- Source: GameCanvas.tsx lines 660-665: the fold of
`resolveDecorationCollision` over all decorations, accumulating whether a
cactus was touched.  The entity update of one call feeds the next. -/
def resolveDecorations (s : ℚ → ℚ) : Entity → List Decoration → Entity × Bool
  | e, [] => (e, false)
  | e, decor :: rest =>
    let r := resolveDecorationCollision s e decor
    let hitCactus := r.2 && decide (decor.type = DecorationType.CACTUS)
    let r2 := resolveDecorations s r.1 rest
    (r2.1, hitCactus || r2.2)

/-- Source: GameCanvas.tsx lines 667-679: cactus contact damage.  When a
cactus was hit, the player is alive and more than 1000 ms have passed
since the last tick, the player loses 2 hp, `setHealth(max 0 hp)` is
emitted (collected in the returned list), the tick timer resets, and
game over fires if hp dropped to 0 or below.  The entire block only runs
in the PLAYING state (it sits inside the movement block gated on
line 630). -/
def cactusDamageStep (statePlaying : Bool) (p : Player) (hitCactus : Bool)
    (time lastCactusDamageTime : ℚ) : Player × ℚ × List ℚ × Bool :=
  if statePlaying ∧ hitCactus ∧ 0 < p.hp ∧ 1000 < time - lastCactusDamageTime then
    let p2 := { p with hp := p.hp - 2 }
    (p2, time, [max 0 p2.hp], decide (p2.hp ≤ 0))
  else
    (p, lastCactusDamageTime, [], false)

/-- Source: GameCanvas.tsx lines 820-837: enemy-vs-player contact for one
enemy.  A live player within combined radius of the enemy takes 10
damage, the enemy's hp is set to 0 (kamikaze), `setHealth(max 0 hp)` is
emitted, and game over fires when hp drops to 0 or below. -/
def enemyContact (p : Player) (e : Enemy) : Player × Enemy × List ℚ × Bool :=
  if 0 < p.hp ∧ sqrtLt (distSq p.position e.position) (p.radius + e.radius) = true then
    let p2 := { p with hp := p.hp - 10 }
    (p2, { e with hp := 0 }, [max 0 p2.hp], decide (p2.hp ≤ 0))
  else
    (p, e, [], false)

/-- Source: GameCanvas.tsx lines 785-838, the hp-relevant part of the
enemy update loop: each enemy in turn tests contact with the player.
The enemy list holds the enemies at their already-integrated positions
(movement and wall/decoration resolution never read or write player hp). -/
def enemyContactStep : Player → List Enemy → Player × List Enemy × List ℚ × Bool
  | p, [] => (p, [], [], false)
  | p, e :: es =>
    let r := enemyContact p e
    let r2 := enemyContactStep r.1 es
    (r2.1, r.2.1 :: r2.2.1, r.2.2.1 ++ r2.2.2.1, r.2.2.2 || r2.2.2.2)

/-- Source: GameCanvas.tsx lines 864-877, the health-pack filter body: a
pack within combined radius of the player heals the player to `maxHp`,
emits `setHealth(player.hp)` (the unclamped new value) and is removed. -/
def healthPackPickup : Player → List HealthPack → Player × List HealthPack × List ℚ
  | p, [] => (p, [], [])
  | p, pack :: packs =>
    if sqrtLt (distSq p.position pack.position) (p.radius + pack.radius) = true then
      let p2 := { p with hp := p.maxHp }
      let r := healthPackPickup p2 packs
      (r.1, r.2.1, p2.hp :: r.2.2)
    else
      let r := healthPackPickup p packs
      (r.1, pack :: r.2.1, r.2.2)

/-- Source: GameCanvas.tsx lines 863-878: the pickup pass runs only while
the player is alive. -/
def healthPackStep (p : Player) (packs : List HealthPack) :
    Player × List HealthPack × List ℚ :=
  if 0 < p.hp then healthPackPickup p packs else (p, packs, [])

/-- The player-hp data flow of one frame of `gameLoop`, in source order:
cactus contact damage (lines 667-679), enemy kamikaze contact
(lines 820-837), health-pack pickup (lines 863-878).  No other statement
of the frame reads or writes `player.hp` except as a guard; the enemy and
pack lists are taken at their in-frame positions.  Returns the player and
the list of values passed to `setHealth` during the frame. -/
def playerHpFrame (statePlaying : Bool) (p : Player) (hitCactus : Bool)
    (time lastCactusDamageTime : ℚ) (enemies : List Enemy)
    (packs : List HealthPack) : Player × List ℚ :=
  let r1 := cactusDamageStep statePlaying p hitCactus time lastCactusDamageTime
  let r2 := enemyContactStep r1.1 enemies
  let r3 := healthPackStep r2.1 packs
  (r3.1, r1.2.2.1 ++ r2.2.2.1 ++ r3.2.2)

/-- Source: GameCanvas.tsx lines 84 and 713-739, the shooting block.
Requires: player alive, PLAYING state, mouse held, strictly more than
`FIRE_RATE = 500` ms since the last shot, and ammo > 0.  On success the
ammo drops by one, the cooldown timer resets to `time` and a bullet of
radius 4, speed 12 and damage 20 spawns 25 units along the aim direction
(`aimCos`, `aimSin` stand for `Math.cos(aimAngle)`, `Math.sin(aimAngle)`).
Returns the player, the new `lastShotTime` and the spawned bullet. -/
def shootStep (p : Player) (statePlaying isMouseDown : Bool)
    (time lastShotTime : ℚ) (aimCos aimSin : ℚ) :
    Player × ℚ × Option Bullet :=
  if 0 < p.hp ∧ statePlaying = true then
    if isMouseDown = true ∧ 500 < time - lastShotTime then
      if 0 < p.ammo then
        let p2 := { p with ammo := p.ammo - 1 }
        let b : Bullet :=
          ⟨⟨p.position.x + aimCos * 25, p.position.y + aimSin * 25⟩,
            ⟨aimCos * 12, aimSin * 12⟩, 4, 20⟩
        (p2, time, some b)
      else (p, lastShotTime, none)
    else (p, lastShotTime, none)
  else (p, lastShotTime, none)

/-- Source: GameCanvas.tsx line 847: a bullet hits an enemy when
`Math.sqrt(dx*dx+dy*dy) < b.radius + e.radius`. -/
def bulletEnemyHit (b : Bullet) (e : Enemy) : Bool :=
  sqrtLt (distSq b.position e.position) (b.radius + e.radius)

/-- Result of processing one bullet against the enemy list: the updated
bullet, the updated enemies, the score gained and the number of kill
notifications fired. -/
structure HitResult where
  bullet : Bullet
  enemies : List Enemy
  scoreGain : ℚ
  kills : ℕ

/-- Source: GameCanvas.tsx lines 842-859, the inner `forEach` of the
bullet/enemy combat pass: every enemy within combined radius receives the
bullet's (current) damage and zeroes the bullet's damage; whenever the
struck enemy's hp is then ≤ 0 the score grows by its value and a kill
notification fires. -/
def hitEnemies : Bullet → List Enemy → HitResult
  | b, [] => ⟨b, [], 0, 0⟩
  | b, e :: es =>
    if bulletEnemyHit b e then
      let e2 : Enemy := { e with hp := e.hp - b.damage }
      let b2 : Bullet := { b with damage := 0 }
      let r := hitEnemies b2 es
      ⟨r.bullet, e2 :: r.enemies,
        (if e2.hp ≤ 0 then e.value else 0) + r.scoreGain,
        (if e2.hp ≤ 0 then 1 else 0) + r.kills⟩
    else
      let r := hitEnemies b es
      ⟨r.bullet, e :: r.enemies, r.scoreGain, r.kills⟩

/-- Result of the full bullet/enemy combat pass. -/
structure CombatResult where
  bullets : List Bullet
  enemies : List Enemy
  scoreGain : ℚ
  kills : ℕ

/-- Source: GameCanvas.tsx lines 841-860, the outer `forEach` of the
bullet/enemy combat pass: each bullet in turn is resolved against the
(updated) enemy list. -/
def combatStep : List Bullet → List Enemy → CombatResult
  | [], es => ⟨[], es, 0, 0⟩
  | b :: bs, es =>
    let r := hitEnemies b es
    let r2 := combatStep bs r.enemies
    ⟨r.bullet :: r2.bullets, r2.enemies, r.scoreGain + r2.scoreGain,
      r.kills + r2.kills⟩

/-- Source: GameCanvas.tsx line 881: the cleanup pass keeps exactly the
bullets with positive damage. -/
def cleanupBullets (bs : List Bullet) : List Bullet :=
  bs.filter fun b => 0 < b.damage

/-- Source: GameCanvas.tsx line 882: the cleanup pass keeps exactly the
enemies with positive hp. -/
def cleanupEnemies (es : List Enemy) : List Enemy :=
  es.filter fun e => 0 < e.hp

/-! Shared helper lemmas. -/

theorem distSq_nonneg (a b : Vector2) : 0 ≤ distSq a b := by
  unfold distSq
  nlinarith [sq_nonneg (a.x - b.x), sq_nonneg (a.y - b.y)]

/-- Centre coinciding with the decoration centre makes the circle-circle
test degenerate: the `distSq > 0` guard fails, so the call is a no-op that
reports no collision. -/
theorem resolveDecorationCollision_coincide (s : ℚ → ℚ) (e : Entity)
    (d : Decoration) (hx : e.position.x = d.x) (hy : e.position.y = d.y) :
    resolveDecorationCollision s e d = (e, false) := by
  have hdx : e.position.x - d.x = 0 := by rw [hx]; ring
  have hdy : e.position.y - d.y = 0 := by rw [hy]; ring
  simp [resolveDecorationCollision, hdx, hdy]

theorem resolveDecorations_coincide (s : ℚ → ℚ) (e : Entity)
    (ds : List Decoration)
    (h : ∀ d ∈ ds, d.x = e.position.x ∧ d.y = e.position.y) :
    resolveDecorations s e ds = (e, false) := by
  induction ds with
  | nil => rfl
  | cons d rest ih =>
    have hd := h d (List.mem_cons_self d rest)
    have hrest : ∀ d2 ∈ rest, d2.x = e.position.x ∧ d2.y = e.position.y :=
      fun d2 hm => h d2 (List.mem_cons_of_mem d hm)
    have h1 : resolveDecorationCollision s e d = (e, false) :=
      resolveDecorationCollision_coincide s e d hd.1.symm hd.2.symm
    simp [resolveDecorations, h1, ih hrest]

/-- C9: for every entity and decoration whose centres exactly coincide,
`resolveDecorationCollision` returns `false` and leaves the entity
unchanged, even though the circles maximally overlap; consequently a
player exactly centred on every cactus of the decoration list registers
no collision over the whole decoration fold, and with `hitCactus = false`
the cactus-damage block leaves the player (and in particular the hp)
untouched that frame. -/
theorem decoration_degenerate_noop (s : ℚ → ℚ) :
    (∀ (e : Entity) (d : Decoration), e.position.x = d.x → e.position.y = d.y →
      resolveDecorationCollision s e d = (e, false))
    ∧ (∀ (p : Player) (ds : List Decoration) (statePlaying : Bool)
        (time lastCactusDamageTime : ℚ),
        (∀ d ∈ ds, d.x = p.position.x ∧ d.y = p.position.y) →
        resolveDecorations s ⟨p.position, p.velocity, p.radius⟩ ds =
            (⟨p.position, p.velocity, p.radius⟩, false)
          ∧ cactusDamageStep statePlaying p false time lastCactusDamageTime =
            (p, lastCactusDamageTime, [], false)) := by
  constructor
  · exact fun e d hx hy => resolveDecorationCollision_coincide s e d hx hy
  · intro p ds statePlaying time lastT h
    refine ⟨resolveDecorations_coincide s ⟨p.position, p.velocity, p.radius⟩ ds h, ?_⟩
    simp [cactusDamageStep]

/-- Witness for the C9 theorem at a concrete player centred on a cactus. -/
theorem decoration_degenerate_noop_witness :
    resolveDecorationCollision (fun _ => 0) ⟨⟨5, 5⟩, ⟨0, 0⟩, 15⟩
        ⟨5, 5, DecorationType.CACTUS, 1, 0, 15⟩ =
      (⟨⟨5, 5⟩, ⟨0, 0⟩, 15⟩, false) :=
  (decoration_degenerate_noop (fun _ => 0)).1 ⟨⟨5, 5⟩, ⟨0, 0⟩, 15⟩
    ⟨5, 5, DecorationType.CACTUS, 1, 0, 15⟩ rfl rfl

/-- Concrete bullet for the C8 scenario: damage 20, radius 4, placed 10
units from the enemy. -/
def c8Bullet : Bullet := ⟨⟨10, 0⟩, ⟨0, 0⟩, 4, 20⟩

/-- Concrete enemy for the C8 scenario: hp 1, radius 12, value 10. -/
def c8Enemy : Enemy := ⟨⟨0, 0⟩, ⟨0, 0⟩, 12, 1, 2, 10⟩

/-- C8: an enemy with hp 1 overlapping a bullet with damage 20 (distance
10 below the combined radius 16): the combat step drops the enemy hp to
the non-positive value -19, zeroes the bullet damage, grants the enemy's
score value 10 and fires exactly one kill notification, and the cleanup
pass of the frame removes both the bullet and the enemy. -/
theorem bullet_kills_enemy_scenario :
    (combatStep [c8Bullet] [c8Enemy]).scoreGain = 10
    ∧ (combatStep [c8Bullet] [c8Enemy]).kills = 1
    ∧ (combatStep [c8Bullet] [c8Enemy]).bullets.map Bullet.damage = [0]
    ∧ (combatStep [c8Bullet] [c8Enemy]).enemies.map Enemy.hp = [-19]
    ∧ cleanupBullets (combatStep [c8Bullet] [c8Enemy]).bullets = []
    ∧ cleanupEnemies (combatStep [c8Bullet] [c8Enemy]).enemies = [] := by
  norm_num [combatStep, hitEnemies, bulletEnemyHit, sqrtLt, distSq,
    cleanupBullets, cleanupEnemies, c8Bullet, c8Enemy]

/-- C3: `getIntersection` returns a hit only when the ray parameter t
satisfies 0 < t ≤ 1 and the segment parameter u satisfies 0 ≤ u ≤ 1, and
the returned point is rayStart + t * (rayEnd - rayStart) with `param` = t;
it returns no intersection whenever the denominator (cross product of the
two directions) is zero, whenever the ray or the segment has zero length
(sum of squared direction components equal to zero), and whenever
t ≤ 0. -/
theorem getIntersection_spec (rs re ss se : Vector2) :
    (∀ i, getIntersection rs re ss se = some i →
      0 < rayT rs re ss se ∧ rayT rs re ss se ≤ 1 ∧
      0 ≤ rayU rs re ss se ∧ rayU rs re ss se ≤ 1 ∧
      i.x = rs.x + rayT rs re ss se * (re.x - rs.x) ∧
      i.y = rs.y + rayT rs re ss se * (re.y - rs.y) ∧
      i.param = rayT rs re ss se)
    ∧ (rayDenominator rs re ss se = 0 → getIntersection rs re ss se = none)
    ∧ ((re.x - rs.x) * (re.x - rs.x) + (re.y - rs.y) * (re.y - rs.y) = 0 ∨
        (se.x - ss.x) * (se.x - ss.x) + (se.y - ss.y) * (se.y - ss.y) = 0 →
        getIntersection rs re ss se = none)
    ∧ (rayT rs re ss se ≤ 0 → getIntersection rs re ss se = none) := by
  refine ⟨?_, ?_, ?_, ?_⟩
  · intro i h
    simp only [getIntersection] at h
    split_ifs at h with h1 h2 h3
    obtain ⟨ht0, ht1, hu0, hu1⟩ := h3
    obtain rfl := (Option.some_inj.mp h).symm
    exact ⟨ht0, ht1, hu0, hu1, rfl, rfl, rfl⟩
  · intro h
    simp only [getIntersection]
    split_ifs <;> rfl
  · intro h
    simp only [getIntersection]
    rw [if_pos h]
  · intro h
    simp only [getIntersection]
    split_ifs with h1 h2 h3
    · rfl
    · rfl
    · exact absurd h3.1 (not_lt.mpr h)
    · rfl

/-- Witness for the C3 theorem: a concrete upward ray crossing a concrete
horizontal segment at t = u = 1/2. -/
theorem getIntersection_spec_witness :
    getIntersection ⟨0, 0⟩ ⟨0, 2⟩ ⟨-1, 1⟩ ⟨1, 1⟩ = some ⟨0, 1, 1/2⟩ ∧
    (0 < rayT ⟨0, 0⟩ ⟨0, 2⟩ ⟨-1, 1⟩ ⟨1, 1⟩ ∧
      rayT ⟨0, 0⟩ ⟨0, 2⟩ ⟨-1, 1⟩ ⟨1, 1⟩ ≤ 1 ∧
      0 ≤ rayU ⟨0, 0⟩ ⟨0, 2⟩ ⟨-1, 1⟩ ⟨1, 1⟩ ∧
      rayU ⟨0, 0⟩ ⟨0, 2⟩ ⟨-1, 1⟩ ⟨1, 1⟩ ≤ 1 ∧
      (1 : ℚ) * 0 = 0 + rayT ⟨0, 0⟩ ⟨0, 2⟩ ⟨-1, 1⟩ ⟨1, 1⟩ * (0 - 0) ∧
      (1 : ℚ) = 0 + rayT ⟨0, 0⟩ ⟨0, 2⟩ ⟨-1, 1⟩ ⟨1, 1⟩ * (2 - 0) ∧
      (1 : ℚ) / 2 = rayT ⟨0, 0⟩ ⟨0, 2⟩ ⟨-1, 1⟩ ⟨1, 1⟩) := by
  constructor
  · norm_num [getIntersection, rayT, rayU, rayDenominator]
  · have h := (getIntersection_spec ⟨0, 0⟩ ⟨0, 2⟩ ⟨-1, 1⟩ ⟨1, 1⟩).1 ⟨0, 1, 1/2⟩
      (by norm_num [getIntersection, rayT, rayU, rayDenominator])
    simpa using h

/-- Every pack produced by the attempt loop of the health-pack spawner
lies in the fixed square of half extent 1200 and is strictly inside no
wall. -/
theorem healthPackSearch_spec (walls : List Wall) :
    ∀ (n : ℕ) (rand : List (ℚ × ℚ)),
      (∀ r ∈ rand, 0 ≤ r.1 ∧ r.1 ≤ 1 ∧ 0 ≤ r.2 ∧ r.2 ≤ 1) →
      ∀ hp, healthPackSearch walls n rand = some hp →
        -1200 ≤ hp.position.x ∧ hp.position.x ≤ 1200 ∧
        -1200 ≤ hp.position.y ∧ hp.position.y ≤ 1200 ∧
        ∀ w ∈ walls, insideWall hp.position.x hp.position.y w = false := by
  intro n
  induction n with
  | zero =>
    intro rand h hp hsome
    simp [healthPackSearch] at hsome
  | succ n ih =>
    intro rand h hp hsome
    match rand with
    | [] => simp [healthPackSearch] at hsome
    | (rx, ry) :: rest =>
      simp only [healthPackSearch] at hsome
      split_ifs at hsome with hin
      · exact ih rest (fun q hq => h q (List.mem_cons_of_mem _ hq)) hp hsome
      · obtain ⟨hrx0, hrx1, hry0, hry1⟩ := h (rx, ry) (List.mem_cons_self _ rest)
        have hx0 : (0 : ℚ) ≤ rx := hrx0
        have hx1 : rx ≤ 1 := hrx1
        have hy0 : (0 : ℚ) ≤ ry := hry0
        have hy1 : ry ≤ 1 := hry1
        obtain rfl := Option.some_inj.mp hsome
        refine ⟨?_, ?_, ?_, ?_, ?_⟩
        · show -1200 ≤ (rx * 2 - 1) * 1200
          nlinarith
        · show (rx * 2 - 1) * 1200 ≤ 1200
          nlinarith
        · show -1200 ≤ (ry * 2 - 1) * 1200
          nlinarith
        · show (ry * 2 - 1) * 1200 ≤ 1200
          nlinarith
        · intro w hw
          show insideWall ((rx * 2 - 1) * 1200) ((ry * 2 - 1) * 1200) w = false
          rcases Bool.eq_false_or_eq_true
              (insideWall ((rx * 2 - 1) * 1200) ((ry * 2 - 1) * 1200) w) with hb | hb
          · exact absurd (List.any_eq_true.mpr ⟨w, hw, hb⟩) hin
          · exact hb

/-- C10: the health-pack spawner samples from the fixed, map-independent
square of half extent 1200 (the local `mapSize = 1200` does not depend on
the current map, which does not reach `spawnHealthPack` at all; in
particular this also holds while playing Wasteland, whose own half
extents are 800 by 1000), makes at most 10 attempts (the fuel of
`healthPackSearch`) once per strict 30000 ms interval, and only spawns a
pack whose centre is strictly inside no wall rectangle; hence every
spawned pack lies in that square and outside the interiors of all
walls. -/
theorem spawnHealthPack_spec (walls : List Wall) (now lastHealthPackTime : ℚ)
    (rand : List (ℚ × ℚ))
    (h : ∀ r ∈ rand, 0 ≤ r.1 ∧ r.1 ≤ 1 ∧ 0 ≤ r.2 ∧ r.2 ≤ 1) :
    (∀ hp, spawnHealthPack walls now lastHealthPackTime rand = some hp →
      -1200 ≤ hp.position.x ∧ hp.position.x ≤ 1200 ∧
      -1200 ≤ hp.position.y ∧ hp.position.y ≤ 1200 ∧
      ∀ w ∈ walls, insideWall hp.position.x hp.position.y w = false)
    ∧ (now - lastHealthPackTime ≤ 30000 →
        spawnHealthPack walls now lastHealthPackTime rand = none) := by
  constructor
  · intro hp hsome
    unfold spawnHealthPack at hsome
    split_ifs at hsome with hgate
    exact healthPackSearch_spec walls 10 rand h hp hsome
  · intro hle
    unfold spawnHealthPack
    rw [if_neg (not_lt.mpr hle)]

/-- Concrete wall for the C10 witness. -/
def c10Wall : Wall := ⟨0, 0, 100, 100, false⟩

/-- Witness for the C10 theorem: with 40000 ms on the clock and the random
pair (1, 1), a pack actually spawns at (1200, 1200), inside the fixed
square and outside the wall interior. -/
theorem spawnHealthPack_spec_witness :
    spawnHealthPack [c10Wall] 40000 0 [((1 : ℚ), (1 : ℚ))] =
        some ⟨⟨1200, 1200⟩, ⟨0, 0⟩, 15, true⟩ ∧
      (-1200 ≤ (1200 : ℚ) ∧ (1200 : ℚ) ≤ 1200 ∧ -1200 ≤ (1200 : ℚ) ∧
        (1200 : ℚ) ≤ 1200 ∧ ∀ w ∈ [c10Wall], insideWall 1200 1200 w = false) := by
  have hev : spawnHealthPack [c10Wall] 40000 0 [((1 : ℚ), (1 : ℚ))] =
      some ⟨⟨1200, 1200⟩, ⟨0, 0⟩, 15, true⟩ := by
    unfold spawnHealthPack
    rw [if_pos (by norm_num)]
    show healthPackSearch [c10Wall] (9 + 1) [((1 : ℚ), (1 : ℚ))] = _
    simp only [healthPackSearch]
    norm_num [insideWall, c10Wall]
  exact ⟨hev,
    (spawnHealthPack_spec [c10Wall] 40000 0 [((1 : ℚ), (1 : ℚ))] (by norm_num)).1
      ⟨⟨1200, 1200⟩, ⟨0, 0⟩, 15, true⟩ hev⟩

/-- The attempt loop of the spawn search returns the origin fallback or an
accepted sample: in bounds and overlapping no wall. -/
theorem spawnSearch_spec (mapW mapH : ℚ) (walls : List Wall)
    (hW : 0 ≤ mapW - 100) (hH : 0 ≤ mapH - 100) :
    ∀ (n : ℕ) (rand : List (ℚ × ℚ)),
      (∀ r ∈ rand, 0 ≤ r.1 ∧ r.1 ≤ 1 ∧ 0 ≤ r.2 ∧ r.2 ≤ 1) →
      spawnSearch mapW mapH walls n rand = ⟨0, 0⟩ ∨
      (-(mapW - 100) ≤ (spawnSearch mapW mapH walls n rand).x ∧
        (spawnSearch mapW mapH walls n rand).x ≤ mapW - 100 ∧
        -(mapH - 100) ≤ (spawnSearch mapW mapH walls n rand).y ∧
        (spawnSearch mapW mapH walls n rand).y ≤ mapH - 100 ∧
        ∀ w ∈ walls,
          spawnOverlaps (spawnSearch mapW mapH walls n rand).x
            (spawnSearch mapW mapH walls n rand).y w = false) := by
  intro n
  induction n with
  | zero => intro rand h; left; rfl
  | succ n ih =>
    intro rand h
    match rand with
    | [] => left; rfl
    | (rx, ry) :: rest =>
      obtain ⟨hrx0, hrx1, hry0, hry1⟩ := h (rx, ry) (List.mem_cons_self _ rest)
      have hx0 : (0 : ℚ) ≤ rx := hrx0
      have hx1 : rx ≤ 1 := hrx1
      have hy0 : (0 : ℚ) ≤ ry := hry0
      have hy1 : ry ≤ 1 := hry1
      by_cases hsafe :
          (walls.all fun wall =>
            !spawnOverlaps ((rx * 2 - 1) * (mapW - 100)) ((ry * 2 - 1) * (mapH - 100)) wall) = true
      · right
        have hres : spawnSearch mapW mapH walls (n + 1) ((rx, ry) :: rest) =
            ⟨(rx * 2 - 1) * (mapW - 100), (ry * 2 - 1) * (mapH - 100)⟩ := by
          simp only [spawnSearch]
          rw [if_pos hsafe]
        rw [hres]
        refine ⟨by show -(mapW - 100) ≤ (rx * 2 - 1) * (mapW - 100); nlinarith,
          by show (rx * 2 - 1) * (mapW - 100) ≤ mapW - 100; nlinarith,
          by show -(mapH - 100) ≤ (ry * 2 - 1) * (mapH - 100); nlinarith,
          by show (ry * 2 - 1) * (mapH - 100) ≤ mapH - 100; nlinarith, ?_⟩
        intro w hw
        have hall := List.all_eq_true.mp hsafe w hw
        show spawnOverlaps ((rx * 2 - 1) * (mapW - 100)) ((ry * 2 - 1) * (mapH - 100)) w = false
        rcases Bool.eq_false_or_eq_true
            (spawnOverlaps ((rx * 2 - 1) * (mapW - 100)) ((ry * 2 - 1) * (mapH - 100)) w) with hb | hb
        · rw [hb] at hall; exact absurd hall (by simp)
        · exact hb
      · have hres : spawnSearch mapW mapH walls (n + 1) ((rx, ry) :: rest) =
            spawnSearch mapW mapH walls n rest := by
          simp only [spawnSearch]
          rw [if_neg hsafe]
        rw [hres]
        exact ih rest fun q hq => h q (List.mem_cons_of_mem _ hq)

/-- With no walls, the very first sample is always accepted. -/
theorem spawnSearch_empty_first (mapW mapH rx ry : ℚ) (rest : List (ℚ × ℚ))
    (n : ℕ) :
    spawnSearch mapW mapH [] (n + 1) ((rx, ry) :: rest) =
      ⟨(rx * 2 - 1) * (mapW - 100), (ry * 2 - 1) * (mapH - 100)⟩ := by
  simp [spawnSearch]

/-- C6: `findSafeSpawnPosition` makes at most 50 random attempts (the
fuel of `spawnSearch`) and returns either a sampled position that lies
within the closed per-axis range `[-(half extent - 100), half extent - 100]`
and whose player-radius-inflated bounding box overlaps no wall, or the
origin (0, 0) without any validation after the attempts are exhausted;
with an empty wall list the very first sample is accepted and lies within
those bounds. -/
theorem findSafeSpawnPosition_spec (walls : List Wall) (mapName : MapName)
    (rand : List (ℚ × ℚ))
    (h : ∀ r ∈ rand, 0 ≤ r.1 ∧ r.1 ≤ 1 ∧ 0 ≤ r.2 ∧ r.2 ≤ 1) :
    (findSafeSpawnPosition walls mapName rand = ⟨0, 0⟩ ∨
      (-((mapHalfExtents mapName).1 - 100) ≤ (findSafeSpawnPosition walls mapName rand).x ∧
        (findSafeSpawnPosition walls mapName rand).x ≤ (mapHalfExtents mapName).1 - 100 ∧
        -((mapHalfExtents mapName).2 - 100) ≤ (findSafeSpawnPosition walls mapName rand).y ∧
        (findSafeSpawnPosition walls mapName rand).y ≤ (mapHalfExtents mapName).2 - 100 ∧
        ∀ w ∈ walls,
          spawnOverlaps (findSafeSpawnPosition walls mapName rand).x
            (findSafeSpawnPosition walls mapName rand).y w = false))
    ∧ (∀ (rx ry : ℚ) (rest : List (ℚ × ℚ)), rand = (rx, ry) :: rest → walls = [] →
        findSafeSpawnPosition walls mapName rand =
          ⟨(rx * 2 - 1) * ((mapHalfExtents mapName).1 - 100),
            (ry * 2 - 1) * ((mapHalfExtents mapName).2 - 100)⟩ ∧
          -((mapHalfExtents mapName).1 - 100) ≤
            (rx * 2 - 1) * ((mapHalfExtents mapName).1 - 100) ∧
          (rx * 2 - 1) * ((mapHalfExtents mapName).1 - 100) ≤ (mapHalfExtents mapName).1 - 100 ∧
          -((mapHalfExtents mapName).2 - 100) ≤
            (ry * 2 - 1) * ((mapHalfExtents mapName).2 - 100) ∧
          (ry * 2 - 1) * ((mapHalfExtents mapName).2 - 100) ≤ (mapHalfExtents mapName).2 - 100) := by
  have hW : 0 ≤ (mapHalfExtents mapName).1 - 100 := by
    cases mapName <;> norm_num [mapHalfExtents]
  have hH : 0 ≤ (mapHalfExtents mapName).2 - 100 := by
    cases mapName <;> norm_num [mapHalfExtents]
  constructor
  · exact spawnSearch_spec (mapHalfExtents mapName).1 (mapHalfExtents mapName).2
      walls hW hH 50 rand h
  · intro rx ry rest hrand hwalls
    subst hrand
    subst hwalls
    obtain ⟨hrx0, hrx1, hry0, hry1⟩ := h (rx, ry) (List.mem_cons_self _ rest)
    have hx0 : (0 : ℚ) ≤ rx := hrx0
    have hx1 : rx ≤ 1 := hrx1
    have hy0 : (0 : ℚ) ≤ ry := hry0
    have hy1 : ry ≤ 1 := hry1
    refine ⟨?_, by nlinarith, by nlinarith, by nlinarith, by nlinarith⟩
    exact spawnSearch_empty_first (mapHalfExtents mapName).1 (mapHalfExtents mapName).2
      rx ry rest 49

/-- Witness for the C6 theorem: on Wasteland with a single random pair
(1, 0) and no walls, the search accepts the first sample (700, -900),
which sits inside the per-axis ranges [-700, 700] and [-900, 900]. -/
theorem findSafeSpawnPosition_spec_witness :
    (∀ r ∈ [((1 : ℚ), (0 : ℚ))], 0 ≤ r.1 ∧ r.1 ≤ 1 ∧ 0 ≤ r.2 ∧ r.2 ≤ 1) ∧
      (findSafeSpawnPosition [] MapName.Wasteland [((1 : ℚ), (0 : ℚ))] =
          ⟨(1 * 2 - 1) * ((mapHalfExtents MapName.Wasteland).1 - 100),
            (0 * 2 - 1) * ((mapHalfExtents MapName.Wasteland).2 - 100)⟩ ∧
        -((mapHalfExtents MapName.Wasteland).1 - 100) ≤
          (1 * 2 - 1) * ((mapHalfExtents MapName.Wasteland).1 - 100) ∧
        (1 * 2 - 1) * ((mapHalfExtents MapName.Wasteland).1 - 100) ≤
          (mapHalfExtents MapName.Wasteland).1 - 100 ∧
        -((mapHalfExtents MapName.Wasteland).2 - 100) ≤
          (0 * 2 - 1) * ((mapHalfExtents MapName.Wasteland).2 - 100) ∧
        (0 * 2 - 1) * ((mapHalfExtents MapName.Wasteland).2 - 100) ≤
          (mapHalfExtents MapName.Wasteland).2 - 100) :=
  ⟨by norm_num,
    (findSafeSpawnPosition_spec [] MapName.Wasteland [((1 : ℚ), (0 : ℚ))]
        (by norm_num)).2 1 0 [] rfl rfl⟩

/-- C7 (amended): a bullet is spawned exactly when the player is alive,
the game state is PLAYING, the mouse is held, STRICTLY more than 500 ms
have elapsed since the last shot (the source compares with `>`; at
exactly 500 ms elapsed no shot fires), and ammo is strictly positive.  A
spawn consumes exactly one ammo (which hence never becomes negative,
because firing requires positive ammo) and resets the cooldown timer to
`time`; when any condition fails the player and the cooldown timer are
unchanged and no bullet is created. -/
theorem shootStep_spec (p : Player) (statePlaying isMouseDown : Bool)
    (time lastShotTime aimCos aimSin : ℚ) (hammo : 0 ≤ p.ammo) :
    ((shootStep p statePlaying isMouseDown time lastShotTime aimCos aimSin).2.2 ≠ none ↔
      (0 < p.hp ∧ statePlaying = true ∧ isMouseDown = true ∧
        500 < time - lastShotTime ∧ 0 < p.ammo))
    ∧ ((shootStep p statePlaying isMouseDown time lastShotTime aimCos aimSin).2.2 ≠ none →
        (shootStep p statePlaying isMouseDown time lastShotTime aimCos aimSin).1.ammo =
            p.ammo - 1 ∧
          (shootStep p statePlaying isMouseDown time lastShotTime aimCos aimSin).1.hp = p.hp ∧
          (shootStep p statePlaying isMouseDown time lastShotTime aimCos aimSin).2.1 = time)
    ∧ 0 ≤ (shootStep p statePlaying isMouseDown time lastShotTime aimCos aimSin).1.ammo
    ∧ ((shootStep p statePlaying isMouseDown time lastShotTime aimCos aimSin).2.2 = none →
        (shootStep p statePlaying isMouseDown time lastShotTime aimCos aimSin).1 = p ∧
          (shootStep p statePlaying isMouseDown time lastShotTime aimCos aimSin).2.1 =
            lastShotTime) := by
  unfold shootStep
  split_ifs with h1 h2 h3
  · refine ⟨?_, ?_, ?_, ?_⟩
    · simp only [ne_eq, reduceCtorEq, not_false_eq_true, true_iff]
      exact ⟨h1.1, h1.2, h2.1, h2.2, h3⟩
    · intro
      exact ⟨rfl, rfl, rfl⟩
    · show 0 ≤ p.ammo - 1
      omega
    · intro hnone
      exact absurd hnone (by simp)
  · refine ⟨?_, ?_, hammo, fun _ => ⟨rfl, rfl⟩⟩
    · simp only [ne_eq, not_true_eq_false, false_iff, not_and]
      intro _ _ _ _
      exact h3
    · intro hne
      exact absurd rfl hne
  · refine ⟨?_, ?_, hammo, fun _ => ⟨rfl, rfl⟩⟩
    · simp only [ne_eq, not_true_eq_false, false_iff, not_and]
      intro _ _ hmd hcool
      exact absurd ⟨hmd, hcool⟩ h2
    · intro hne
      exact absurd rfl hne
  · refine ⟨?_, ?_, hammo, fun _ => ⟨rfl, rfl⟩⟩
    · simp only [ne_eq, not_true_eq_false, false_iff, not_and]
      intro hhp hsp
      exact absurd ⟨hhp, hsp⟩ h1
    · intro hne
      exact absurd rfl hne

/-- Concrete player for the C7 counterexample and witness. -/
def c7Player : Player := ⟨⟨0, 0⟩, ⟨0, 0⟩, 15, 100, 100, 4, 120⟩

/-- Counterexample to C7 as stated: with the player alive, the state
PLAYING, the mouse held, ammo 120 > 0 and exactly 500 ms elapsed since
the last shot ("at least 500 ms"), the code spawns no bullet and consumes
no ammo, because the source requires strictly more than `FIRE_RATE = 500`
ms. -/
theorem shootStep_boundary_counterexample :
    0 < c7Player.hp ∧ 0 < c7Player.ammo ∧ (500 : ℚ) - 0 ≥ 500 ∧
      shootStep c7Player true true 500 0 1 0 = (c7Player, 0, none) := by
  norm_num [shootStep, c7Player]

/-- Witness for the amended C7 theorem at elapsed time 501 ms. -/
theorem shootStep_spec_witness :
    0 ≤ c7Player.ammo ∧
      ((shootStep c7Player true true 501 0 1 0).2.2 ≠ none ↔
        (0 < c7Player.hp ∧ true = true ∧ true = true ∧
          500 < (501 : ℚ) - 0 ∧ 0 < c7Player.ammo))
      ∧ ((shootStep c7Player true true 501 0 1 0).2.2 ≠ none →
          (shootStep c7Player true true 501 0 1 0).1.ammo = c7Player.ammo - 1 ∧
            (shootStep c7Player true true 501 0 1 0).1.hp = c7Player.hp ∧
            (shootStep c7Player true true 501 0 1 0).2.1 = 501)
      ∧ 0 ≤ (shootStep c7Player true true 501 0 1 0).1.ammo
      ∧ ((shootStep c7Player true true 501 0 1 0).2.2 = none →
          (shootStep c7Player true true 501 0 1 0).1 = c7Player ∧
            (shootStep c7Player true true 501 0 1 0).2.1 = 0) :=
  ⟨by norm_num [c7Player],
    shootStep_spec c7Player true true 501 0 1 0 (by norm_num [c7Player])⟩

/-- For bullets with nonnegative radius the raw squared test of
`checkBulletWallCollision` coincides with the distance-below-radius
reading. -/
theorem checkBulletWallCollision_eq (b : Bullet) (w : Wall) (hr : 0 ≤ b.radius) :
    checkBulletWallCollision b w = true ↔
      w.isLow = false ∧
        sqrtLt (distSq b.position (closestPoint b.position w)) b.radius = true := by
  unfold checkBulletWallCollision sqrtLt
  cases hl : w.isLow
  · simp only [Bool.false_eq_true, if_false, decide_eq_true_eq, Bool.and_eq_true,
      true_and]
    constructor
    · intro hd
      have hd0 : 0 ≤ distSq b.position (closestPoint b.position w) :=
        distSq_nonneg _ _
      rcases eq_or_lt_of_le hr with hr0 | hr0
      · rw [← hr0] at hd
        nlinarith
      · exact ⟨hr0, hd⟩
    · exact fun hd => hd.2
  · simp

/-- C5 (amended): in the bullet integration and despawn step, a bullet is
destroyed exactly when it contacts some non-low wall (closest-point
distance strictly below its radius) or when its distance from the camera
focus reaches or exceeds the despawn radius, which is 1.5 times the
LARGER VIEWPORT DIMENSION `max width height` (not 1.5 times the viewport
diagonal); low walls never destroy bullets, and decorations are not
consulted by the filter at all (bullets pass through both). -/
theorem bullet_despawn_spec (walls : List Wall) (cameraPos : Vector2)
    (width height : ℚ) (b : Bullet) (hr : 0 ≤ b.radius) :
    (bulletSurvives walls cameraPos (despawnDistance width height) b = false ↔
      (∃ w ∈ walls, w.isLow = false ∧
        sqrtLt (distSq b.position (closestPoint b.position w)) b.radius = true) ∨
      sqrtLt (distSq b.position cameraPos) (despawnDistance width height) = false)
    ∧ (∀ w : Wall, w.isLow = true → checkBulletWallCollision b w = false) := by
  constructor
  · unfold bulletSurvives
    by_cases hany : (walls.any fun wall => checkBulletWallCollision b wall) = true
    · rw [if_pos hany]
      simp only [true_iff]
      left
      obtain ⟨w, hw, hcheck⟩ := List.any_eq_true.mp hany
      exact ⟨w, hw, (checkBulletWallCollision_eq b w hr).mp hcheck⟩
    · rw [if_neg hany]
      constructor
      · intro hfar
        right
        exact hfar
      · intro hdisj
        rcases hdisj with ⟨w, hw, hlow, hhit⟩ | hfar
        · exact absurd
            (List.any_eq_true.mpr
              ⟨w, hw, (checkBulletWallCollision_eq b w hr).mpr ⟨hlow, hhit⟩⟩) hany
        · exact hfar
  · intro w hlow
    unfold checkBulletWallCollision
    rw [if_pos hlow]

/-- Concrete bullet for the C5 counterexample and witness: 1500 units
from the camera focus. -/
def c5Bullet : Bullet := ⟨⟨1500, 0⟩, ⟨0, 0⟩, 4, 20⟩

/-- Counterexample to C5 as stated: on a 1000 by 1000 viewport with no
walls at all, the bullet at distance 1500 from the camera focus is
destroyed by the filter (its distance equals 1.5 times the larger
viewport dimension), although its squared distance 2250000 is strictly
below (1.5 times the viewport diagonal)² = 2.25 * 2000000 = 4500000, so
the claimed destroy-exactly-at-1.5-diagonal rule says it should
survive. -/
theorem bullet_despawn_diagonal_counterexample :
    bulletSurvives [] ⟨0, 0⟩ (despawnDistance 1000 1000) c5Bullet = false ∧
      distSq c5Bullet.position ⟨0, 0⟩ <
        (3 / 2 * (3 / 2)) * (1000 * 1000 + 1000 * 1000) := by
  norm_num [bulletSurvives, despawnDistance, sqrtLt, distSq, c5Bullet]

/-- Witness for the amended C5 theorem at the concrete bullet and a
square 1000 by 1000 viewport. -/
theorem bullet_despawn_spec_witness :
    0 ≤ c5Bullet.radius ∧
      ((bulletSurvives [] ⟨0, 0⟩ (despawnDistance 1000 1000) c5Bullet = false ↔
        (∃ w ∈ ([] : List Wall), w.isLow = false ∧
          sqrtLt (distSq c5Bullet.position (closestPoint c5Bullet.position w))
            c5Bullet.radius = true) ∨
        sqrtLt (distSq c5Bullet.position ⟨0, 0⟩) (despawnDistance 1000 1000) = false)
      ∧ (∀ w : Wall, w.isLow = true → checkBulletWallCollision c5Bullet w = false)) :=
  ⟨by norm_num [c5Bullet],
    bullet_despawn_spec [] ⟨0, 0⟩ 1000 1000 c5Bullet (by norm_num [c5Bullet])⟩

/-- The cactus-damage block never raises hp above maxHp and only emits
health values inside [0, maxHp]. -/
theorem cactusDamageStep_bounds (statePlaying : Bool) (p : Player) (hc : Bool)
    (time lastT : ℚ) (h1 : p.hp ≤ p.maxHp) (hm : 0 ≤ p.maxHp) :
    (cactusDamageStep statePlaying p hc time lastT).1.hp ≤ p.maxHp ∧
      (cactusDamageStep statePlaying p hc time lastT).1.maxHp = p.maxHp ∧
      ∀ v ∈ (cactusDamageStep statePlaying p hc time lastT).2.2.1,
        0 ≤ v ∧ v ≤ p.maxHp := by
  unfold cactusDamageStep
  split_ifs with hcond
  · refine ⟨by show p.hp - 2 ≤ p.maxHp; linarith, rfl, ?_⟩
    intro v hv
    simp only [List.mem_singleton] at hv
    subst hv
    exact ⟨le_max_left 0 _, max_le hm (by show p.hp - 2 ≤ p.maxHp; linarith)⟩
  · exact ⟨h1, rfl, by simp⟩

/-- A single enemy contact never raises hp above maxHp and only emits
health values inside [0, maxHp]. -/
theorem enemyContact_bounds (p : Player) (e : Enemy) (h1 : p.hp ≤ p.maxHp)
    (hm : 0 ≤ p.maxHp) :
    (enemyContact p e).1.hp ≤ p.maxHp ∧ (enemyContact p e).1.maxHp = p.maxHp ∧
      ∀ v ∈ (enemyContact p e).2.2.1, 0 ≤ v ∧ v ≤ p.maxHp := by
  unfold enemyContact
  split_ifs with hcond
  · refine ⟨by show p.hp - 10 ≤ p.maxHp; linarith, rfl, ?_⟩
    intro v hv
    simp only [List.mem_singleton] at hv
    subst hv
    exact ⟨le_max_left 0 _, max_le hm (by show p.hp - 10 ≤ p.maxHp; linarith)⟩
  · exact ⟨h1, rfl, by simp⟩

/-- The enemy contact loop never raises hp above maxHp and only emits
health values inside [0, maxHp]. -/
theorem enemyContactStep_bounds (es : List Enemy) :
    ∀ p : Player, p.hp ≤ p.maxHp → 0 ≤ p.maxHp →
      (enemyContactStep p es).1.hp ≤ p.maxHp ∧
        (enemyContactStep p es).1.maxHp = p.maxHp ∧
        ∀ v ∈ (enemyContactStep p es).2.2.1, 0 ≤ v ∧ v ≤ p.maxHp := by
  induction es with
  | nil =>
    intro p h1 hm
    exact ⟨h1, rfl, by simp [enemyContactStep]⟩
  | cons e rest ih =>
    intro p h1 hm
    obtain ⟨hhp, hmax, hemit⟩ := enemyContact_bounds p e h1 hm
    obtain ⟨hhp2, hmax2, hemit2⟩ :=
      ih (enemyContact p e).1 (by rw [hmax]; exact hhp) (by rw [hmax]; exact hm)
    simp only [enemyContactStep]
    refine ⟨by rw [← hmax]; exact hhp2, by rw [hmax2, hmax], ?_⟩
    intro v hv
    rcases List.mem_append.mp hv with hv1 | hv2
    · exact hemit v hv1
    · have := hemit2 v hv2
      rw [hmax] at this
      exact this

/-- The health-pack pickup pass never raises hp above maxHp and only
emits health values inside [0, maxHp]. -/
theorem healthPackPickup_bounds (packs : List HealthPack) :
    ∀ p : Player, p.hp ≤ p.maxHp → 0 ≤ p.maxHp →
      (healthPackPickup p packs).1.hp ≤ p.maxHp ∧
        (healthPackPickup p packs).1.maxHp = p.maxHp ∧
        ∀ v ∈ (healthPackPickup p packs).2.2, 0 ≤ v ∧ v ≤ p.maxHp := by
  induction packs with
  | nil =>
    intro p h1 hm
    exact ⟨h1, rfl, by simp [healthPackPickup]⟩
  | cons pack rest ih =>
    intro p h1 hm
    simp only [healthPackPickup]
    split_ifs with hcond
    · obtain ⟨hhp2, hmax2, hemit2⟩ := ih { p with hp := p.maxHp } le_rfl hm
      refine ⟨hhp2, hmax2, ?_⟩
      intro v hv
      rcases List.mem_cons.mp hv with hv1 | hv2
      · subst hv1
        exact ⟨hm, le_rfl⟩
      · exact hemit2 v hv2
    · exact ih p h1 hm

/-- C1 (amended): over one frame of the simulation step, the player's hp
never exceeds maxHp, and every health value reported through `setHealth`
during the frame lies in [0, maxHp] (the cactus and kamikaze emissions
are clamped with `Math.max(0, hp)` and the heal emission equals maxHp);
the stored `player.hp` itself, however, is NOT clamped below and can
become negative on a lethal hit (see the counterexample theorem). -/
theorem playerHpFrame_bounds (statePlaying : Bool) (p : Player) (hc : Bool)
    (time lastT : ℚ) (enemies : List Enemy) (packs : List HealthPack)
    (h0 : 0 ≤ p.hp) (h1 : p.hp ≤ p.maxHp) :
    (playerHpFrame statePlaying p hc time lastT enemies packs).1.hp ≤ p.maxHp ∧
      ∀ v ∈ (playerHpFrame statePlaying p hc time lastT enemies packs).2,
        0 ≤ v ∧ v ≤ p.maxHp := by
  have hm : 0 ≤ p.maxHp := le_trans h0 h1
  obtain ⟨ha1, ha2, ha3⟩ := cactusDamageStep_bounds statePlaying p hc time lastT h1 hm
  set p1 := (cactusDamageStep statePlaying p hc time lastT).1 with hp1
  obtain ⟨hb1, hb2, hb3⟩ :=
    enemyContactStep_bounds enemies p1 (by rw [ha2]; exact ha1) (by rw [ha2]; exact hm)
  set p2 := (enemyContactStep p1 enemies).1 with hp2
  have hq1 : p2.hp ≤ p.maxHp := by rw [← ha2]; exact hb1
  have hq2 : p2.maxHp = p.maxHp := by rw [hb2, ha2]
  simp only [playerHpFrame, healthPackStep]
  split_ifs with halive
  · obtain ⟨hc1, hc2, hc3⟩ :=
      healthPackPickup_bounds packs p2 (by rw [hq2]; exact hq1) (by rw [hq2]; exact hm)
    refine ⟨by rw [← hq2]; exact hc1, ?_⟩
    intro v hv
    rcases List.mem_append.mp hv with hv12 | hv3
    · rcases List.mem_append.mp hv12 with hv1 | hv2
      · exact ha3 v hv1
      · have := hb3 v hv2
        rw [ha2] at this
        exact this
    · have := hc3 v hv3
      rw [hq2] at this
      exact this
  · refine ⟨hq1, ?_⟩
    intro v hv
    rcases List.mem_append.mp hv with hv12 | hv3
    · rcases List.mem_append.mp hv12 with hv1 | hv2
      · exact ha3 v hv1
      · have := hb3 v hv2
        rw [ha2] at this
        exact this
    · simp at hv3

/-- Concrete player for the C1 counterexample and witness: hp 2 inside
[0, maxHp]. -/
def c1Player : Player := ⟨⟨0, 0⟩, ⟨0, 0⟩, 15, 2, 100, 4, 120⟩

/-- Concrete enemy overlapping the C1 player. -/
def c1Enemy : Enemy := ⟨⟨0, 0⟩, ⟨0, 0⟩, 12, 1, 2, 10⟩

/-- Counterexample to C1 as stated: a frame starting with hp = 2 (inside
[0, maxHp]) in which one kamikaze enemy overlaps the player leaves the
stored `player.hp` at -8, strictly below 0; the invariant claimed for
`player.hp` fails (only the value reported via `setHealth` is clamped to
0). -/
theorem playerHpFrame_negative_counterexample :
    0 ≤ c1Player.hp ∧ c1Player.hp ≤ c1Player.maxHp ∧
      (playerHpFrame true c1Player false 2000 0 [c1Enemy] []).1.hp = -8 := by
  norm_num [playerHpFrame, cactusDamageStep, enemyContactStep, enemyContact,
    healthPackStep, sqrtLt, distSq, c1Player, c1Enemy]

/-- Witness for the amended C1 theorem at the concrete lethal-hit frame:
hp stays below maxHp and both reported health values are clamped into
[0, maxHp]. -/
theorem playerHpFrame_bounds_witness :
    0 ≤ c1Player.hp ∧ c1Player.hp ≤ c1Player.maxHp ∧
      ((playerHpFrame true c1Player false 2000 0 [c1Enemy] []).1.hp ≤ c1Player.maxHp ∧
        ∀ v ∈ (playerHpFrame true c1Player false 2000 0 [c1Enemy] []).2,
          0 ≤ v ∧ v ≤ c1Player.maxHp) :=
  ⟨by norm_num [c1Player], by norm_num [c1Player],
    playerHpFrame_bounds true c1Player false 2000 0 [c1Enemy] []
      (by norm_num [c1Player]) (by norm_num [c1Player])⟩

/-- The bullet/enemy hit test reads only position and radius, never the
bullet's damage. -/
theorem bulletEnemyHit_damage_irrel (b : Bullet) (d : ℚ) (e : Enemy) :
    bulletEnemyHit { b with damage := d } e = bulletEnemyHit b e := rfl

/-- Unfolding equation for the inner combat loop on a hit. -/
theorem hitEnemies_cons_hit (b : Bullet) (e : Enemy) (rest : List Enemy)
    (hhit : bulletEnemyHit b e = true) :
    hitEnemies b (e :: rest) =
      ⟨(hitEnemies { b with damage := 0 } rest).bullet,
        { e with hp := e.hp - b.damage } ::
          (hitEnemies { b with damage := 0 } rest).enemies,
        (if e.hp - b.damage ≤ 0 then e.value else 0) +
          (hitEnemies { b with damage := 0 } rest).scoreGain,
        (if e.hp - b.damage ≤ 0 then 1 else 0) +
          (hitEnemies { b with damage := 0 } rest).kills⟩ := by
  simp only [hitEnemies]
  rw [if_pos hhit]

/-- Unfolding equation for the inner combat loop on a miss. -/
theorem hitEnemies_cons_miss (b : Bullet) (e : Enemy) (rest : List Enemy)
    (hhit : ¬bulletEnemyHit b e = true) :
    hitEnemies b (e :: rest) =
      ⟨(hitEnemies b rest).bullet, e :: (hitEnemies b rest).enemies,
        (hitEnemies b rest).scoreGain, (hitEnemies b rest).kills⟩ := by
  simp only [hitEnemies]
  rw [if_neg hhit]

/-- Combat only rewrites enemy hp: positions and radii are preserved. -/
theorem hitEnemies_enemies_geom (b : Bullet) (es : List Enemy) :
    (hitEnemies b es).enemies.map (fun e => (e.position, e.radius)) =
      es.map fun e => (e.position, e.radius) := by
  induction es generalizing b with
  | nil => rfl
  | cons e rest ih =>
    by_cases hhit : bulletEnemyHit b e = true
    · rw [hitEnemies_cons_hit b e rest hhit]
      dsimp only
      simp [ih]
    · rw [hitEnemies_cons_miss b e rest hhit]
      dsimp only
      simp [ih]

/-- The hit test against a whole list only depends on the enemies'
positions and radii. -/
theorem any_bulletEnemyHit_congr (b : Bullet) :
    ∀ {es es2 : List Enemy},
      es.map (fun e => (e.position, e.radius)) =
        es2.map (fun e => (e.position, e.radius)) →
      es.any (bulletEnemyHit b) = es2.any (bulletEnemyHit b) := by
  intro es
  induction es with
  | nil =>
    intro es2 h
    cases es2 with
    | nil => rfl
    | cons e2 t2 => simp at h
  | cons e t ih =>
    intro es2 h
    cases es2 with
    | nil => simp at h
    | cons e2 t2 =>
      simp only [List.map_cons, List.cons.injEq, Prod.mk.injEq] at h
      obtain ⟨⟨hpos, hrad⟩, htail⟩ := h
      have hhead : bulletEnemyHit b e = bulletEnemyHit b e2 := by
        unfold bulletEnemyHit
        rw [hpos, hrad]
      simp only [List.any_cons, ih htail, hhead]

/-- One bullet leaves the inner combat loop with damage 0 when some enemy
of the list is within combined radius, and with its damage untouched
otherwise. -/
theorem hitEnemies_bullet (b : Bullet) (es : List Enemy) :
    (hitEnemies b es).bullet =
      { b with damage := if es.any (bulletEnemyHit b) then 0 else b.damage } := by
  induction es generalizing b with
  | nil => simp [hitEnemies]
  | cons e rest ih =>
    by_cases hhit : bulletEnemyHit b e = true
    · rw [hitEnemies_cons_hit b e rest hhit]
      dsimp only
      rw [ih]
      simp [bulletEnemyHit_damage_irrel, List.any_cons, hhit, ite_self]
    · rw [hitEnemies_cons_miss b e rest hhit]
      dsimp only
      rw [ih]
      simp [List.any_cons, hhit]

/-- The full combat pass preserves every enemy's position and radius. -/
theorem combatStep_enemies_geom (bs : List Bullet) (es : List Enemy) :
    (combatStep bs es).enemies.map (fun e => (e.position, e.radius)) =
      es.map fun e => (e.position, e.radius) := by
  induction bs generalizing es with
  | nil => rfl
  | cons b rest ih =>
    simp only [combatStep]
    rw [ih, hitEnemies_enemies_geom]

/-- Pointwise characterisation of the bullets leaving the combat pass:
the i-th output bullet is the i-th input bullet, with damage zeroed
exactly when some enemy (of the frame's enemy list) is within combined
radius of it. -/
theorem combatStep_bullets_spec (bs : List Bullet) (es : List Enemy) :
    List.Forall₂ (fun b2 b =>
        b2 = { b with damage := if es.any (bulletEnemyHit b) then 0 else b.damage })
      (combatStep bs es).bullets bs := by
  induction bs generalizing es with
  | nil => exact List.Forall₂.nil
  | cons b rest ih =>
    simp only [combatStep]
    refine List.Forall₂.cons (hitEnemies_bullet b es) ?_
    refine (ih (hitEnemies b es).enemies).imp ?_
    intro b2 b0 hb
    rw [hb, any_bulletEnemyHit_congr b0 (hitEnemies_enemies_geom b es)]

/-- A `Forall₂` relation sends every member of the left list to a related
member of the right list. -/
theorem forall2_exists_right {α β : Type} {R : α → β → Prop} :
    ∀ {l1 : List α} {l2 : List β}, List.Forall₂ R l1 l2 →
      ∀ a ∈ l1, ∃ b ∈ l2, R a b := by
  intro l1 l2 h
  induction h with
  | nil =>
    intro a ha
    simp at ha
  | @cons a0 b0 l1a l2a hab hrest ih =>
    intro a ha
    rcases List.mem_cons.mp ha with rfl | hmem
    · exact ⟨b0, List.mem_cons_self _ _, hab⟩
    · obtain ⟨b, hb, hr⟩ := ih a hmem
      exact ⟨b, List.mem_cons_of_mem _ hb, hr⟩

/-- The cleanup filter keeps exactly the positive-damage bullets. -/
theorem cleanupBullets_mem (bs : List Bullet) (b : Bullet) :
    b ∈ cleanupBullets bs ↔ b ∈ bs ∧ 0 < b.damage := by
  unfold cleanupBullets
  simp [List.mem_filter]

/-- C4: within one frame a bullet's damage never increases (for the
nonnegative damages bullets actually spawn with); combat zeroes it
exactly when the bullet overlaps some enemy, with no intermediate value
even on overkill; position integration never touches damage; the cleanup
pass removes exactly the bullets whose damage is not positive; and hence
every bullet surviving the frame still carries an original, positive
damage value. -/
theorem bullet_damage_frame_spec (bs : List Bullet) (es : List Enemy) :
    List.Forall₂ (fun b2 b =>
        b2.damage = (if es.any (bulletEnemyHit b) then 0 else b.damage) ∧
          (0 ≤ b.damage → b2.damage ≤ b.damage))
      (combatStep bs es).bullets bs
    ∧ (∀ b, b ∈ cleanupBullets (combatStep bs es).bullets ↔
        b ∈ (combatStep bs es).bullets ∧ 0 < b.damage)
    ∧ (∀ b2 ∈ cleanupBullets (combatStep bs es).bullets,
        0 < b2.damage ∧ ∃ b ∈ bs, b2.damage = b.damage ∧ 0 < b.damage)
    ∧ ∀ b : Bullet, (moveBullet b).damage = b.damage := by
  refine ⟨?_, fun b => cleanupBullets_mem _ b, ?_, fun b => rfl⟩
  · refine (combatStep_bullets_spec bs es).imp ?_
    intro b2 b hb
    constructor
    · rw [hb]
    · intro h0
      rw [hb]
      split_ifs with hhit
      · show (0 : ℚ) ≤ b.damage
        exact h0
      · exact le_rfl
  · intro b2 hb2
    obtain ⟨hmem, hpos⟩ := (cleanupBullets_mem _ b2).mp hb2
    obtain ⟨b, hb, hr⟩ := forall2_exists_right (combatStep_bullets_spec bs es) b2 hmem
    refine ⟨hpos, b, hb, ?_⟩
    rw [hr] at hpos ⊢
    split_ifs at hpos ⊢ with hhit
    · exact absurd hpos (by norm_num)
    · exact ⟨rfl, hpos⟩

/-- Concrete bullet for the C4 witness. -/
def c4Bullet : Bullet := ⟨⟨0, 0⟩, ⟨0, 0⟩, 4, 20⟩

/-- Concrete enemy for the C4 witness, overlapping the bullet. -/
def c4Enemy : Enemy := ⟨⟨5, 0⟩, ⟨0, 0⟩, 12, 1, 2, 10⟩

/-- Witness for the C4 theorem at a one-bullet, one-enemy frame. -/
theorem bullet_damage_frame_spec_witness :
    List.Forall₂ (fun b2 b =>
        b2.damage = (if [c4Enemy].any (bulletEnemyHit b) then 0 else b.damage) ∧
          (0 ≤ b.damage → b2.damage ≤ b.damage))
      (combatStep [c4Bullet] [c4Enemy]).bullets [c4Bullet]
    ∧ (∀ b, b ∈ cleanupBullets (combatStep [c4Bullet] [c4Enemy]).bullets ↔
        b ∈ (combatStep [c4Bullet] [c4Enemy]).bullets ∧ 0 < b.damage)
    ∧ (∀ b2 ∈ cleanupBullets (combatStep [c4Bullet] [c4Enemy]).bullets,
        0 < b2.damage ∧ ∃ b ∈ [c4Bullet], b2.damage = b.damage ∧ 0 < b.damage)
    ∧ ∀ b : Bullet, (moveBullet b).damage = b.damage :=
  bullet_damage_frame_spec [c4Bullet] [c4Enemy]

/-- Scaling the offset of a point from its axis clamp by any nonnegative
factor never changes the clamp: the key geometric fact behind minimal
translation out of an axis-aligned rectangle. -/
theorem clamp_scale (lo hi x k : ℚ) (hk : 0 ≤ k) :
    max lo (min (max lo (min x hi) + k * (x - max lo (min x hi))) hi) =
      max lo (min x hi) := by
  rcases le_total x hi with hxhi | hhix
  · rcases le_total lo x with hlox | hxlo
    · rw [min_eq_left hxhi, max_eq_right hlox, sub_self, mul_zero, add_zero,
        min_eq_left hxhi, max_eq_right hlox]
    · rw [min_eq_left hxhi, max_eq_left hxlo]
      have ht : lo + k * (x - lo) ≤ lo := by nlinarith
      rcases le_total (lo + k * (x - lo)) hi with h1 | h1
      · rw [min_eq_left h1, max_eq_left ht]
      · have hhilo : hi ≤ lo := le_trans h1 ht
        rw [min_eq_right h1, max_eq_left hhilo]
  · rw [min_eq_right hhix]
    rcases le_total lo hi with hlohi | hhilo
    · rw [max_eq_right hlohi]
      have ht : hi ≤ hi + k * (x - hi) := by nlinarith
      rw [min_eq_right ht, max_eq_right hlohi]
    · rw [max_eq_left hhilo]
      have hmin : min (lo + k * (x - lo)) hi ≤ lo := le_trans (min_le_right _ _) hhilo
      rw [max_eq_left hmin]

/-- Unfolding equation of `resolveWallCollision` in the colliding case. -/
theorem resolveWallCollision_hit (s : ℚ → ℚ) (e : Entity) (w : Wall)
    (h : distSq e.position (closestPoint e.position w) < e.radius * e.radius ∧
      0 < distSq e.position (closestPoint e.position w)) :
    resolveWallCollision s e w =
      { e with position :=
          ⟨e.position.x +
              (e.position.x - (closestPoint e.position w).x) /
                  s (distSq e.position (closestPoint e.position w)) *
                (e.radius - s (distSq e.position (closestPoint e.position w))),
            e.position.y +
              (e.position.y - (closestPoint e.position w).y) /
                  s (distSq e.position (closestPoint e.position w)) *
                (e.radius - s (distSq e.position (closestPoint e.position w)))⟩ } := by
  simp only [resolveWallCollision]
  split_ifs with hcond
  · rfl
  · exact absurd h hcond

/-- Unfolding equation of `resolveWallCollision` in the no-op case. -/
theorem resolveWallCollision_miss (s : ℚ → ℚ) (e : Entity) (w : Wall)
    (h : ¬(distSq e.position (closestPoint e.position w) < e.radius * e.radius ∧
      0 < distSq e.position (closestPoint e.position w))) :
    resolveWallCollision s e w = e := by
  simp only [resolveWallCollision]
  split_ifs with hcond
  · exact absurd hcond h
  · rfl

/-- Arithmetic core of the push-out property: after moving the centre out
along the normal by `radius - distance`, the squared distance to the
closest rectangle point equals radius². -/
theorem push_out_distSq (lo hi lo2 hi2 X Y r d : ℚ) (hd0 : 0 < d) (hr : 0 ≤ r)
    (hsq : d * d = (X - max lo (min X hi)) * (X - max lo (min X hi)) +
      (Y - max lo2 (min Y hi2)) * (Y - max lo2 (min Y hi2))) :
    (X + (X - max lo (min X hi)) / d * (r - d) -
        max lo (min (X + (X - max lo (min X hi)) / d * (r - d)) hi)) *
      (X + (X - max lo (min X hi)) / d * (r - d) -
        max lo (min (X + (X - max lo (min X hi)) / d * (r - d)) hi)) +
      (Y + (Y - max lo2 (min Y hi2)) / d * (r - d) -
        max lo2 (min (Y + (Y - max lo2 (min Y hi2)) / d * (r - d)) hi2)) *
      (Y + (Y - max lo2 (min Y hi2)) / d * (r - d) -
        max lo2 (min (Y + (Y - max lo2 (min Y hi2)) / d * (r - d)) hi2)) = r * r := by
  have hdne : d ≠ 0 := ne_of_gt hd0
  have hk : 0 ≤ r / d := div_nonneg hr hd0.le
  have hpx : X + (X - max lo (min X hi)) / d * (r - d) =
      max lo (min X hi) + r / d * (X - max lo (min X hi)) := by
    field_simp
    ring
  have hpy : Y + (Y - max lo2 (min Y hi2)) / d * (r - d) =
      max lo2 (min Y hi2) + r / d * (Y - max lo2 (min Y hi2)) := by
    field_simp
    ring
  rw [hpx, hpy, clamp_scale lo hi X (r / d) hk, clamp_scale lo2 hi2 Y (r / d) hk]
  have hx2 : max lo (min X hi) + r / d * (X - max lo (min X hi)) - max lo (min X hi) =
      r / d * (X - max lo (min X hi)) := by ring
  have hy2 : max lo2 (min Y hi2) + r / d * (Y - max lo2 (min Y hi2)) - max lo2 (min Y hi2) =
      r / d * (Y - max lo2 (min Y hi2)) := by ring
  rw [hx2, hy2]
  have key : r / d * (X - max lo (min X hi)) * (r / d * (X - max lo (min X hi))) +
      r / d * (Y - max lo2 (min Y hi2)) * (r / d * (Y - max lo2 (min Y hi2))) =
      r / d * (r / d) * ((X - max lo (min X hi)) * (X - max lo (min X hi)) +
        (Y - max lo2 (min Y hi2)) * (Y - max lo2 (min Y hi2))) := by
    ring
  rw [key, ← hsq]
  field_simp

/-- C2 (amended): for every entity of NONNEGATIVE radius and every wall,
with `d` the exact distance from the entity centre to the closest
rectangle point (the abstract square root `s` applied to the squared
distance, pinned by `s d2 * s d2 = d2` and `0 ≤ s d2`): if 0 < d < radius
the entity is translated along the outward normal by exactly
radius - d, after which its distance to the closest point on the wall
equals its radius exactly; if d = 0 or d ≥ radius the entity is left
completely unchanged; velocity and radius (and the wall, which the
function never writes) are never modified.  For a negative radius the
unchanged-case fails in the source (see the counterexample theorem). -/
theorem resolveWallCollision_spec (s : ℚ → ℚ) (e : Entity) (w : Wall)
    (hr : 0 ≤ e.radius)
    (hsq : s (distSq e.position (closestPoint e.position w)) *
        s (distSq e.position (closestPoint e.position w)) =
      distSq e.position (closestPoint e.position w))
    (_hsnn : 0 ≤ s (distSq e.position (closestPoint e.position w))) :
    ((0 < s (distSq e.position (closestPoint e.position w)) ∧
        s (distSq e.position (closestPoint e.position w)) < e.radius) →
      (resolveWallCollision s e w).position.x =
          e.position.x + (e.position.x - (closestPoint e.position w).x) /
              s (distSq e.position (closestPoint e.position w)) *
            (e.radius - s (distSq e.position (closestPoint e.position w))) ∧
        (resolveWallCollision s e w).position.y =
          e.position.y + (e.position.y - (closestPoint e.position w).y) /
              s (distSq e.position (closestPoint e.position w)) *
            (e.radius - s (distSq e.position (closestPoint e.position w))) ∧
        distSq (resolveWallCollision s e w).position
            (closestPoint (resolveWallCollision s e w).position w) =
          e.radius * e.radius)
    ∧ ((s (distSq e.position (closestPoint e.position w)) = 0 ∨
          e.radius ≤ s (distSq e.position (closestPoint e.position w))) →
        resolveWallCollision s e w = e)
    ∧ (resolveWallCollision s e w).velocity = e.velocity
    ∧ (resolveWallCollision s e w).radius = e.radius := by
  have hnn : 0 ≤ distSq e.position (closestPoint e.position w) := distSq_nonneg _ _
  refine ⟨?_, ?_, ?_, ?_⟩
  · rintro ⟨hd0, hdr⟩
    have hcond : distSq e.position (closestPoint e.position w) < e.radius * e.radius ∧
        0 < distSq e.position (closestPoint e.position w) := by
      constructor
      · rw [← hsq]
        nlinarith
      · rw [← hsq]
        nlinarith
    rw [resolveWallCollision_hit s e w hcond]
    refine ⟨rfl, rfl, ?_⟩
    exact push_out_distSq w.x (w.x + w.width) w.y (w.y + w.height)
      e.position.x e.position.y e.radius
      (s (distSq e.position (closestPoint e.position w))) hd0 hr hsq
  · intro hcase
    apply resolveWallCollision_miss
    rcases hcase with h0 | hge
    · rw [← hsq, h0]
      intro hcon
      exact absurd hcon.2 (by norm_num)
    · intro hcon
      rw [← hsq] at hcon
      nlinarith [hcon.1, hcon.2, hr, hge]
  · rcases Classical.em (distSq e.position (closestPoint e.position w) <
        e.radius * e.radius ∧ 0 < distSq e.position (closestPoint e.position w)) with hc | hc
    · rw [resolveWallCollision_hit s e w hc]
    · rw [resolveWallCollision_miss s e w hc]
  · rcases Classical.em (distSq e.position (closestPoint e.position w) <
        e.radius * e.radius ∧ 0 < distSq e.position (closestPoint e.position w)) with hc | hc
    · rw [resolveWallCollision_hit s e w hc]
    · rw [resolveWallCollision_miss s e w hc]

/-- Concrete wall for the C2 counterexample and witness. -/
def c2Wall : Wall := ⟨0, 0, 10, 10, false⟩

/-- Concrete entity with NEGATIVE radius for the C2 counterexample,
standing 3 units to the right of the wall. -/
def c2Entity : Entity := ⟨⟨13, 5⟩, ⟨1, 1⟩, -5⟩

/-- Exact square-root table for the radicand 9 arising in the C2
configurations. -/
def c2Sqrt : ℚ → ℚ := fun q => if q = 9 then 3 else 0

/-- Counterexample to C2 as stated: for the entity of radius -5 at
distance 3 from the wall (an exact square root: 3 * 3 = 9), the distance
is at least the radius, so the claim demands the entity be left
completely unchanged; the source's raw squared test `9 < (-5)² ∧ 9 > 0`
nevertheless fires and moves the entity from x = 13 to x = 5 (into the
wall). -/
theorem resolveWallCollision_negative_radius_counterexample :
    c2Sqrt (distSq c2Entity.position (closestPoint c2Entity.position c2Wall)) *
        c2Sqrt (distSq c2Entity.position (closestPoint c2Entity.position c2Wall)) =
      distSq c2Entity.position (closestPoint c2Entity.position c2Wall) ∧
    0 ≤ c2Sqrt (distSq c2Entity.position (closestPoint c2Entity.position c2Wall)) ∧
    c2Entity.radius ≤
      c2Sqrt (distSq c2Entity.position (closestPoint c2Entity.position c2Wall)) ∧
    (resolveWallCollision c2Sqrt c2Entity c2Wall).position.x = 5 ∧
    c2Entity.position.x = 13 := by
  norm_num [resolveWallCollision, closestPoint, distSq, c2Sqrt, c2Entity, c2Wall,
    min_def, max_def]

/-- Concrete entity with positive radius 4 for the C2 witness, at
distance 3 from the wall. -/
def c2WitnessEntity : Entity := ⟨⟨13, 5⟩, ⟨0, 0⟩, 4⟩

/-- Witness for the amended C2 theorem at the positive-radius entity. -/
theorem resolveWallCollision_spec_witness :
    0 ≤ c2WitnessEntity.radius ∧
    c2Sqrt (distSq c2WitnessEntity.position
          (closestPoint c2WitnessEntity.position c2Wall)) *
        c2Sqrt (distSq c2WitnessEntity.position
          (closestPoint c2WitnessEntity.position c2Wall)) =
      distSq c2WitnessEntity.position (closestPoint c2WitnessEntity.position c2Wall) ∧
    0 ≤ c2Sqrt (distSq c2WitnessEntity.position
        (closestPoint c2WitnessEntity.position c2Wall)) ∧
    (((0 < c2Sqrt (distSq c2WitnessEntity.position
          (closestPoint c2WitnessEntity.position c2Wall)) ∧
        c2Sqrt (distSq c2WitnessEntity.position
          (closestPoint c2WitnessEntity.position c2Wall)) < c2WitnessEntity.radius) →
      (resolveWallCollision c2Sqrt c2WitnessEntity c2Wall).position.x =
          c2WitnessEntity.position.x +
            (c2WitnessEntity.position.x -
                (closestPoint c2WitnessEntity.position c2Wall).x) /
                c2Sqrt (distSq c2WitnessEntity.position
                  (closestPoint c2WitnessEntity.position c2Wall)) *
              (c2WitnessEntity.radius - c2Sqrt (distSq c2WitnessEntity.position
                (closestPoint c2WitnessEntity.position c2Wall))) ∧
        (resolveWallCollision c2Sqrt c2WitnessEntity c2Wall).position.y =
          c2WitnessEntity.position.y +
            (c2WitnessEntity.position.y -
                (closestPoint c2WitnessEntity.position c2Wall).y) /
                c2Sqrt (distSq c2WitnessEntity.position
                  (closestPoint c2WitnessEntity.position c2Wall)) *
              (c2WitnessEntity.radius - c2Sqrt (distSq c2WitnessEntity.position
                (closestPoint c2WitnessEntity.position c2Wall))) ∧
        distSq (resolveWallCollision c2Sqrt c2WitnessEntity c2Wall).position
            (closestPoint (resolveWallCollision c2Sqrt c2WitnessEntity c2Wall).position
              c2Wall) =
          c2WitnessEntity.radius * c2WitnessEntity.radius)
    ∧ ((c2Sqrt (distSq c2WitnessEntity.position
            (closestPoint c2WitnessEntity.position c2Wall)) = 0 ∨
          c2WitnessEntity.radius ≤ c2Sqrt (distSq c2WitnessEntity.position
            (closestPoint c2WitnessEntity.position c2Wall))) →
        resolveWallCollision c2Sqrt c2WitnessEntity c2Wall = c2WitnessEntity)
    ∧ (resolveWallCollision c2Sqrt c2WitnessEntity c2Wall).velocity =
        c2WitnessEntity.velocity
    ∧ (resolveWallCollision c2Sqrt c2WitnessEntity c2Wall).radius =
        c2WitnessEntity.radius) :=
  ⟨by norm_num [c2WitnessEntity],
    by norm_num [c2Sqrt, distSq, closestPoint, c2WitnessEntity, c2Wall, min_def, max_def],
    by norm_num [c2Sqrt, distSq, closestPoint, c2WitnessEntity, c2Wall, min_def, max_def],
    resolveWallCollision_spec c2Sqrt c2WitnessEntity c2Wall
      (by norm_num [c2WitnessEntity])
      (by norm_num [c2Sqrt, distSq, closestPoint, c2WitnessEntity, c2Wall, min_def, max_def])
      (by norm_num [c2Sqrt, distSq, closestPoint, c2WitnessEntity, c2Wall, min_def, max_def])⟩
